import Mathlib

/-!
# GDTVJam2022: application loop and Tilter widget

A shallow embedding of `src/app.cpp` (class `App`) and
`src/game/map/elements/tilter.cpp` (class `Tilter`).

Conventions of the embedding

* `float` values are exact rationals (`ℚ`); the constant `0.2f` is `1/5` and
  `0.001f` is `1/1000`.
* Member functions are functions on an explicit state record.  The functions
  of `App` also return the list of calls they make on the objects the loop
  drives (render backend, window, submission thread, map), in program order.
* `std::thread submitDraw` is the flag `submitDrawJoinable`: assigning a new
  `std::thread` sets it, `join()` clears it.
* What lives outside the two source files is a parameter: the build flags
  (`Build`), the `settings::` constants (`Settings`), the events handed out by
  `glfwPollEvents`, the value of `Input::Controls` after `controls.Update`,
  the time measured by `timer.Update()` (all three in `Frame`), and for the
  Tilter the helpers `gh::contains`, `glmhelper::getVectorFromAngle`,
  `Sprite::Update` and the mirror texture size (`TilterEnv`).
-/

namespace GDTVJam

/-! ## Vectors -/

/-- Rational stand-in for `glm::vec2`. -/
structure Vec2 where
  x : ℚ
  y : ℚ
deriving DecidableEq, Repr

/-- Rational stand-in for `glm::vec4`. -/
structure Vec4 where
  x : ℚ
  y : ℚ
  z : ℚ
  w : ℚ
deriving DecidableEq, Repr

/-- Componentwise difference, `a - b` on `glm::vec2`. -/
def Vec2.sub (a b : Vec2) : Vec2 := ⟨a.x - b.x, a.y - b.y⟩

/-- Componentwise sum, `a + b` on `glm::vec2`. -/
def Vec2.add (a b : Vec2) : Vec2 := ⟨a.x + b.x, a.y + b.y⟩

/-- Componentwise product, `a * b` on `glm::vec2`. -/
def Vec2.mul (a b : Vec2) : Vec2 := ⟨a.x * b.x, a.y * b.y⟩

/-- Componentwise negation. -/
def Vec2.neg (a : Vec2) : Vec2 := ⟨-a.x, -a.y⟩

/-! ## GLFW constants used by `app.cpp` -/

def GLFW_RELEASE : Int := 0
def GLFW_PRESS : Int := 1
def GLFW_REPEAT : Int := 2
def GLFW_KEY_F : Int := 70
def GLFW_KEY_ESCAPE : Int := 256

/-! ## Configuration that is fixed at build time -/

/-- The preprocessor symbols `app.cpp` tests with `#ifdef`. -/
structure Build where
  GFX_ENV_VULKAN : Bool
  GFX_ENV_OPENGL : Bool
  MULTI_UPDATE_ON_SLOW_DRAW : Bool
deriving DecidableEq, Repr

/-- The `settings::` constants read by `app.cpp`. -/
structure Settings where
  USE_TARGET_RESOLUTION : Bool
  TARGET_WIDTH : Int
  TARGET_HEIGHT : Int
deriving DecidableEq, Repr

/-! ## Application state -/

/-- The fields of the `Input` snapshot that `app.cpp` touches.  The arrays
`bool Keys[1024]` and `bool Buttons[8]` are functions of the index. -/
structure Input where
  Keys : Int → Bool
  Buttons : Int → Bool
  X : ℚ
  Y : ℚ
  offset : ℚ

/-- What `Input::Controls` reports after `controls.Update`. -/
structure Controls where
  Up : Bool
  Down : Bool
  Left : Bool
  Right : Bool
  Plus : Bool
  Minus : Bool
  LeftMouse : Bool
  MousePos : Vec2
deriving DecidableEq, Repr

/-- The frame timer: `FrameElapsed()` returns the stored value. -/
structure Timer where
  FrameElapsed : ℚ
deriving DecidableEq, Repr

/-- The members of `App` that `app.cpp` reads or writes, together with the
two pieces of window state it changes through GLFW: `windowMonitor` is
`glfwGetWindowMonitor(mWindow) != nullptr` and `shouldClose` is
`glfwWindowShouldClose(mWindow)`. -/
structure App where
  mWindowWidth : Int
  mWindowHeight : Int
  mRenderNonNull : Bool
  input : Input
  previousInput : Input
  controls : Controls
  target : Vec2
  scale : ℚ
  timer : Timer
  submitDrawJoinable : Bool
  finishedDrawSubmit : Bool
  windowMonitor : Bool
  shouldClose : Bool

/-- A call made by `App` on one of the objects it drives. -/
inductive Act
  | join
  | framebufferResize
  | controlsUpdate
  | setWindowMonitor (fullscreen : Bool)
  | setWindowShouldClose
  | cameraSetScale (scale : ℚ)
  | cameraTarget (target : Vec2)
  | mapUpdate
  | set2DViewMatrixAndScale
  | timerUpdate
  | begin2DDraw
  | mapDraw
  | submitThread
  | endDraw
deriving DecidableEq, Repr

/-- A window event that `glfwPollEvents` hands to one of the callbacks
registered in the constructor. -/
inductive Event
  | framebufferSize (width height : Int)
  | cursorPos (xpos ypos : ℚ)
  | scroll (xoffset yoffset : ℚ)
  | key (key scancode action mode : Int)
  | mouseButton (button action mods : Int)
deriving DecidableEq, Repr

/-- What the outside world supplies to one `App::update`: the events of the
poll, the state of `controls` once `controls.Update` has run, and the frame
time that `timer.Update()` measures at the end. -/
structure Frame where
  events : List Event
  controls : Controls
  elapsed : ℚ
deriving DecidableEq, Repr

/-- Sequencing of two operations, concatenating the calls they make. -/
def andThen (r : App × List Act) (f : App → App × List Act) : App × List Act :=
  ((f r.1).1, r.2 ++ (f r.1).2)

/-- The statement `if (submitDraw.joinable()) submitDraw.join();`. -/
def joinSubmitDraw (s : App) : App × List Act :=
  if s.submitDrawJoinable then ({ s with submitDrawJoinable := false }, [Act.join])
  else (s, [])

/-- Embedding of `App::resize`. -/
def resize (windowWidth windowHeight : Int) (s : App) : App × List Act :=
  andThen (joinSubmitDraw s) fun s =>
    let s := { s with mWindowWidth := windowWidth, mWindowHeight := windowHeight }
    if s.mRenderNonNull && s.mWindowWidth != 0 && s.mWindowHeight != 0 then
      (s, [Act.framebufferResize])
    else (s, [])

/-- Embedding of `App::key_callback`, on the snapshot it writes. -/
def key_callback (key action : Int) (i : Input) : Input :=
  if 0 ≤ key ∧ key < 1024 then
    if action = GLFW_PRESS then
      { i with Keys := fun k => if k = key then true else i.Keys k }
    else if action = GLFW_RELEASE then
      { i with Keys := fun k => if k = key then false else i.Keys k }
    else i
  else i

/-- Embedding of `App::mouse_button_callback`, on the snapshot it writes. -/
def mouse_button_callback (button action : Int) (i : Input) : Input :=
  if 0 ≤ button ∧ button < 8 then
    if action = GLFW_PRESS then
      { i with Buttons := fun b => if b = button then true else i.Buttons b }
    else if action = GLFW_RELEASE then
      { i with Buttons := fun b => if b = button then false else i.Buttons b }
    else i
  else i

/-- The callback that one event invokes. -/
def dispatch (e : Event) (s : App) : App × List Act :=
  match e with
  | .framebufferSize width height => resize width height s
  | .cursorPos xpos ypos => ({ s with input := { s.input with X := xpos, Y := ypos } }, [])
  | .scroll _ yoffset => ({ s with input := { s.input with offset := yoffset } }, [])
  | .key key _ action _ => ({ s with input := key_callback key action s.input }, [])
  | .mouseButton button action _ =>
      ({ s with input := mouse_button_callback button action s.input }, [])

/-- Embedding of `glfwPollEvents()`: the pending events reach their callbacks in order. -/
def glfwPollEvents : List Event → App → App × List Act
  | [], s => (s, [])
  | e :: es, s => andThen (dispatch e s) (glfwPollEvents es)

/-- Embedding of `App::correctedPos`. -/
def correctedPos (cfg : Settings) (s : App) (pos : Vec2) : Vec2 :=
  if cfg.USE_TARGET_RESOLUTION then
    ⟨pos.x * ((cfg.TARGET_WIDTH : ℚ) * s.scale / (s.mWindowWidth : ℚ)),
     pos.y * ((cfg.TARGET_HEIGHT : ℚ) * s.scale / (s.mWindowHeight : ℚ))⟩
  else ⟨pos.x, pos.y⟩

/-- Embedding of `App::correctedMouse`. -/
def correctedMouse (cfg : Settings) (s : App) : Vec2 :=
  correctedPos cfg s ⟨s.input.X, s.input.Y⟩

/-- The fullscreen block of `App::preUpdate` (lines 97-110). -/
def fullscreenToggle (s : App) : App × List Act :=
  if s.input.Keys GLFW_KEY_F && !s.previousInput.Keys GLFW_KEY_F then
    if s.windowMonitor = false then
      ({ s with windowMonitor := true }, [Act.setWindowMonitor true])
    else
      ({ s with windowMonitor := false }, [Act.setWindowMonitor false])
  else (s, [])

/-- The escape block of `App::preUpdate` (lines 111-114). -/
def closeRequest (s : App) : App × List Act :=
  if s.input.Keys GLFW_KEY_ESCAPE && !s.previousInput.Keys GLFW_KEY_ESCAPE then
    ({ s with shouldClose := true }, [Act.setWindowShouldClose])
  else (s, [])

/-- Embedding of `App::preUpdate`. -/
def preUpdate (f : Frame) (s : App) : App × List Act :=
  andThen (andThen (andThen (glfwPollEvents f.events s)
    (fun s => ({ s with controls := f.controls }, [Act.controlsUpdate])))
    fullscreenToggle) closeRequest

/-- Embedding of `App::postUpdate`. -/
def postUpdate (f : Frame) (s : App) : App × List Act :=
  ({ s with previousInput := s.input,
            input := { s.input with offset := 0 },
            timer := ⟨f.elapsed⟩ },
   [Act.set2DViewMatrixAndScale, Act.timerUpdate])

/-- The camera block of `App::update` (lines 125-141). -/
def moveCamera (s : App) : App × List Act :=
  let camspeed : ℚ := 1 * s.scale
  let dt : ℚ := s.timer.FrameElapsed
  let t0 := s.target
  let t1 : Vec2 := if s.controls.Up then { t0 with y := t0.y - camspeed * dt } else t0
  let t2 : Vec2 := if s.controls.Down then { t1 with y := t1.y + camspeed * dt } else t1
  let t3 : Vec2 := if s.controls.Left then { t2 with x := t2.x - camspeed * dt } else t2
  let t4 : Vec2 := if s.controls.Right then { t3 with x := t3.x + camspeed * dt } else t3
  let sc1 : ℚ := if s.controls.Plus then s.scale - (1 / 1000) * dt else s.scale
  let sc2 : ℚ := if s.controls.Minus then sc1 + (1 / 1000) * dt else sc1
  ({ s with target := t4, scale := sc2 },
   [Act.cameraSetScale sc2, Act.cameraTarget t4, Act.mapUpdate])

/-- Embedding of `App::update`. -/
def update (f : Frame) (s : App) : App × List Act :=
  andThen (andThen (preUpdate f s) moveCamera) (postUpdate f)

/-- The end of `App::draw` (lines 184-191): hand the frame to a new
`std::thread` under `GFX_ENV_VULKAN`, call `EndDraw` in place under
`GFX_ENV_OPENGL`. -/
def finishDraw (b : Build) (s : App) : App × List Act :=
  andThen
    (if b.GFX_ENV_VULKAN then ({ s with submitDrawJoinable := true }, [Act.submitThread])
     else (s, []))
    fun s => if b.GFX_ENV_OPENGL then (s, [Act.endDraw]) else (s, [])

/-- Embedding of `App::draw`. -/
def draw (b : Build) (s : App) : App × List Act :=
  if b.MULTI_UPDATE_ON_SLOW_DRAW && !s.finishedDrawSubmit then (s, [])
  else
    let s := if b.MULTI_UPDATE_ON_SLOW_DRAW then { s with finishedDrawSubmit := false } else s
    andThen (andThen (joinSubmitDraw s)
      (fun s => (s, [Act.begin2DDraw, Act.mapDraw]))) (finishDraw b)

/-- One pass through the body of the loop in `App::run`. -/
def runIteration (b : Build) (f : Frame) (s : App) : App × List Act :=
  andThen (update f s) fun s =>
    if s.mWindowWidth != 0 && s.mWindowHeight != 0 then draw b s else (s, [])

/-- Embedding of `App::run` over the frames the outside world supplies: the loop leaves
when the window should close. -/
def run (b : Build) : List Frame → App → App × List Act
  | [], s => (s, [])
  | f :: fs, s =>
      if s.shouldClose then (s, []) else andThen (runIteration b f s) (run b fs)

/-! ## The submission gate -/

/-- A step of the application as seen from outside: one of the three member
functions, or the `Render::EndDraw` task storing a value in the completion
flag `finishedDrawSubmit` that it holds by reference. -/
inductive Op
  | draw
  | resize (windowWidth windowHeight : Int)
  | update (f : Frame)
  | endDrawStores (value : Bool)
deriving DecidableEq, Repr

/-- The effect of one step. -/
def Op.apply (b : Build) : Op → App → App × List Act
  | .draw, s => GDTVJam.draw b s
  | .resize w h, s => GDTVJam.resize w h s
  | .update f, s => GDTVJam.update f s
  | .endDrawStores v, s => ({ s with finishedDrawSubmit := v }, [])

/-- A sequence of steps, with the calls made along the way. -/
def runOps (b : Build) : List Op → App → App × List Act
  | [], s => (s, [])
  | o :: os, s => andThen (o.apply b s) (runOps b os)

/-- Replays a call sequence against an "outstanding submission" flag:
`submitThread` sets it and is a violation when it is already set, `join`
clears it, and `begin2DDraw` is a violation while it is set.  The result is
the flag at the end, or `none` after a violation. -/
def gate : Bool → List Act → Option Bool
  | o, [] => some o
  | _, Act.join :: t => gate false t
  | o, Act.submitThread :: t => if o then none else gate true t
  | o, Act.begin2DDraw :: t => if o then none else gate o t
  | o, _ :: t => gate o t

/-! ## Observations on call sequences -/

/-- The event is a framebuffer-size event (it reaches `App::resize`). -/
def Event.isFramebufferSize : Event → Bool
  | .framebufferSize _ _ => true
  | _ => false

/-- The event is a key event (it reaches `App::key_callback`). -/
def Event.isKey : Event → Bool
  | .key _ _ _ _ => true
  | _ => false

/-- The call is `glfwSetWindowMonitor`, i.e. a fullscreen toggle. -/
def Act.isSetWindowMonitor : Act → Bool
  | .setWindowMonitor _ => true
  | _ => false

/-- The call belongs to the recording or submission of a frame. -/
def Act.isDrawCall : Act → Bool
  | .begin2DDraw => true
  | .mapDraw => true
  | .submitThread => true
  | .endDraw => true
  | _ => false

/-- The call is `glfwSetWindowShouldClose`, i.e. a shutdown request. -/
def Act.isSetWindowShouldClose : Act → Bool
  | .setWindowShouldClose => true
  | _ => false

/-- The iteration `App::update` on `f` from `s` requests shutdown. -/
def firesClose (f : Frame) (s : App) : Bool :=
  (update f s).2.any Act.isSetWindowShouldClose

/-- An input snapshot with no key and no button down, pointer at the origin. -/
def Input.idle : Input :=
  { Keys := fun _ => false, Buttons := fun _ => false, X := 0, Y := 0, offset := 0 }

/-- Controls reporting nothing held, pointer at the origin. -/
def Controls.idle : Controls :=
  { Up := false, Down := false, Left := false, Right := false, Plus := false,
    Minus := false, LeftMouse := false, MousePos := ⟨0, 0⟩ }

/-- A sample application state: an 800x600 window in windowed mode, nothing
pressed, camera at the origin with zoom scale 1, no submission started and
`finishedDrawSubmit` true as the constructor leaves it. -/
def App.sample : App :=
  { mWindowWidth := 800, mWindowHeight := 600, mRenderNonNull := true,
    input := Input.idle, previousInput := Input.idle, controls := Controls.idle,
    target := ⟨0, 0⟩, scale := 1, timer := ⟨0⟩,
    submitDrawJoinable := false, finishedDrawSubmit := true,
    windowMonitor := false, shouldClose := false }

/-- A frame whose poll delivers the given events, with idle controls. -/
def Frame.ofEvents (es : List Event) : Frame :=
  { events := es, controls := Controls.idle, elapsed := 0 }

/-- The iteration `App::update` on `f` from `s` fires the fullscreen toggle. -/
def firesToggle (f : Frame) (s : App) : Bool :=
  (update f s).2.any Act.isSetWindowMonitor

/-- For consecutive iterations of `App::update`: whether each one fires the
fullscreen toggle. -/
def toggleLog : List Frame → App → List Bool
  | [], _ => []
  | f :: fs, s => firesToggle f s :: toggleLog fs (update f s).1

/-- The F key is down in the snapshot that each of the consecutive
iterations sees after its poll. -/
def heldThrough : List Frame → App → Bool
  | [], _ => true
  | f :: fs, s =>
      (glfwPollEvents f.events s).1.input.Keys GLFW_KEY_F && heldThrough fs (update f s).1

/-- Consecutive iterations of `App::update`. -/
def runUpdates : List Frame → App → App
  | [], s => s
  | f :: fs, s => runUpdates fs (update f s).1

/-- The values that `timer.FrameElapsed()` returns in consecutive iterations
of `App::update`: the stored one, then the one each `timer.Update()` left. -/
def elapsedRead : List Frame → App → List ℚ
  | [], _ => []
  | f :: fs, s => s.timer.FrameElapsed :: elapsedRead fs (update f s).1

/-- What `controls` reports for the six keys `App::update` reads:
`Up`, `Down`, `Left`, `Right`, `Plus`, `Minus`. -/
def Controls.cameraKeys (c : Controls) : List Bool :=
  [c.Up, c.Down, c.Left, c.Right, c.Plus, c.Minus]

/-- The frames of `n` iterations without events in which `controls` reports
`c` and every `timer.Update()` measures `t`. -/
def steadyFrames (c : Controls) (t : ℚ) (n : Nat) : List Frame :=
  List.replicate n { events := [], controls := c, elapsed := t }

/-- Controls reporting only the `Right` key held. -/
def Controls.rightHeld : Controls := { Controls.idle with Right := true }

/-- Controls reporting the `Right` key and the `Plus` zoom key held. -/
def Controls.rightPlusHeld : Controls := { Controls.idle with Right := true, Plus := true }

/-- Net direction along x of the camera keys: `Right` adds, `Left` subtracts. -/
def dirX (c : Controls) : ℚ := (if c.Right then 1 else 0) - (if c.Left then 1 else 0)

/-- Net direction along y of the camera keys: `Down` adds, `Up` subtracts. -/
def dirY (c : Controls) : ℚ := (if c.Down then 1 else 0) - (if c.Up then 1 else 0)

/-- The reference definition of the corrected position, from the
specification: the identity without a fixed target resolution, otherwise each
axis scaled by `(targetDimension * currentZoomScale) / currentWindowDimension`. -/
def correctedPosRef (useTarget : Bool) (targetWidth targetHeight : Int) (zoomScale : ℚ)
    (windowWidth windowHeight : Int) (p : Vec2) : Vec2 :=
  match useTarget with
  | false => p
  | true =>
      { x := p.x * ((targetWidth : ℚ) * zoomScale / (windowWidth : ℚ))
        y := p.y * ((targetHeight : ℚ) * zoomScale / (windowHeight : ℚ)) }

/-! ## The Tilter widget -/

/-- The fields of `Sprite` that `tilter.cpp` reads or sets. -/
structure Sprite where
  rect : Vec4
  drawRect : Vec4
  colour : Vec4
  rotation : ℚ
deriving DecidableEq, Repr

/-- Embedding of `Sprite::setColour`. -/
def Sprite.setColour (sp : Sprite) (c : Vec4) : Sprite := { sp with colour := c }

/-- Embedding of `Sprite::setRotation`. -/
def Sprite.setRotation (sp : Sprite) (r : ℚ) : Sprite := { sp with rotation := r }

/-- Embedding of `Sprite::getDrawRect`. -/
def Sprite.getDrawRect (sp : Sprite) : Vec4 := sp.drawRect

/-- The helpers `tilter.cpp` calls that are defined elsewhere:
`gh::contains(point, rect)`, `glmhelper::getVectorFromAngle(angle)`,
`Sprite::Update(camRect)`, and the value of `mirror.getTextureDim()`, the
size of the mirror texture. -/
structure TilterEnv where
  contains : Vec2 → Vec4 → Bool
  getVectorFromAngle : ℚ → Vec2
  spriteUpdate : Sprite → Vec4 → Sprite
  mirrorTextureDim : Vec2

/-- The members of `Tilter`; `sprite`, `prevClicked` and `clicked` are those
of its base class `Button`. -/
structure Tilter where
  sprite : Sprite
  mirror : Sprite
  pivot : Vec2
  angle : ℚ
  initialAngleVector : Vec2
  prevClicked : Bool
  clicked : Bool
  selected : Bool
  changed : Bool
  calculatedThisFrame : Bool
  prevMouse : Vec2
  mirrorPoints : Vec4
deriving DecidableEq, Repr

/-- Embedding of `Tilter::Update`, lines 23-34: hover tint, and the start of a drag on a
press edge inside the base sprite. -/
def Tilter.hoverStep (env : TilterEnv) (input : Controls) (t : Tilter) : Tilter :=
  if env.contains input.MousePos t.sprite.getDrawRect && !t.selected then
    if !t.clicked then
      { t with sprite := t.sprite.setColour ⟨1 / 2, 1 / 2, 1 / 2, 1⟩ }
    else if !t.prevClicked then
      { t with selected := true, prevMouse := input.MousePos }
    else t
  else t

/-- The scalar `movement` of `Tilter::Update`, lines 45-49, from `prevMouse`,
`input.MousePos()` and `initialAngleVector`. -/
def dragMovement (prevMouse mousePos initialAngleVector : Vec2) : ℚ :=
  let mouseChange := prevMouse.sub mousePos
  let movementVec := mouseChange.mul initialAngleVector
  movementVec.x + movementVec.y

/-- Embedding of `Tilter::Update`, lines 36-60: end of the drag on release, otherwise one
drag step. -/
def Tilter.dragStep (input : Controls) (t : Tilter) : Tilter :=
  if t.selected then
    if !t.clicked then
      { t with selected := false }
    else
      let t := { t with sprite := t.sprite.setColour ⟨4 / 5, 4 / 5, 1 / 5, 1⟩ }
      let movement := dragMovement t.prevMouse input.MousePos t.initialAngleVector
      let t :=
        if movement ≠ 0 then
          { t with angle := t.angle + movement * (1 / 5),
                   changed := true,
                   calculatedThisFrame := false,
                   mirror := t.mirror.setRotation (t.angle + movement * (1 / 5)) }
        else t
      { t with prevMouse := input.MousePos }
  else t

/-- Embedding of `Tilter::Update`. -/
def Tilter.Update (env : TilterEnv) (camRect : Vec4) (input : Controls) (_scale : ℚ)
    (t : Tilter) : Tilter :=
  let t := { t with prevClicked := t.clicked }
  let t := { t with clicked := input.LeftMouse }
  let t := { t with sprite := t.sprite.setColour ⟨1, 1, 1, 1⟩ }
  let t := t.hoverStep env input
  let t := t.dragStep input
  let t := { t with mirror := env.spriteUpdate t.mirror camRect }
  { t with sprite := env.spriteUpdate t.sprite camRect }

/-- Embedding of `Tilter::getMirrorPoints`: the state it leaves and the value it returns. -/
def Tilter.getMirrorPoints (env : TilterEnv) (t : Tilter) : Tilter × Vec4 :=
  if !t.calculatedThisFrame then
    let angleVec := env.getVectorFromAngle t.angle
    let mp : Vec4 :=
      ⟨t.pivot.x + angleVec.x * env.mirrorTextureDim.x / 2,
       t.pivot.y + angleVec.y * env.mirrorTextureDim.x / 2,
       t.pivot.x - angleVec.x * env.mirrorTextureDim.x / 2,
       t.pivot.y - angleVec.y * env.mirrorTextureDim.x / 2⟩
    ({ t with calculatedThisFrame := true, mirrorPoints := mp }, mp)
  else (t, t.mirrorPoints)

/-- The endpoints of the mirror for an angle, as the specification words
them: `(pivot + v * w/2, pivot - v * w/2)` with `v` the direction vector of
the angle and `w` the width of the mirror texture. -/
def mirrorEndpoints (env : TilterEnv) (pivot : Vec2) (angle : ℚ) : Vec4 :=
  let v := env.getVectorFromAngle angle
  let w := env.mirrorTextureDim.x
  let p := pivot.add ⟨v.x * w / 2, v.y * w / 2⟩
  let q := pivot.sub ⟨v.x * w / 2, v.y * w / 2⟩
  ⟨p.x, p.y, q.x, q.y⟩

/-- A call on a Tilter from outside. -/
inductive TilterOp
  | Update (camRect : Vec4) (input : Controls) (scale : ℚ)
  | getMirrorPoints
deriving DecidableEq, Repr

/-- The state after one call. -/
def TilterOp.apply (env : TilterEnv) : TilterOp → Tilter → Tilter
  | .Update camRect input scale, t => t.Update env camRect input scale
  | .getMirrorPoints, t => (t.getMirrorPoints env).1

/-- The state after a sequence of calls. -/
def runTilter (env : TilterEnv) : List TilterOp → Tilter → Tilter
  | [], t => t
  | o :: os, t => runTilter env os (o.apply env t)

/-- Controls reporting the left button down with the pointer at `p`. -/
def Controls.pressedAt (p : Vec2) : Controls :=
  { Controls.idle with LeftMouse := true, MousePos := p }

/-- A sample environment: a point is inside a rect `(x, y, w, h)` when it
lies strictly between its edges, angle 0 points along `(1, 0)` and every
other angle along `(0, 1)`, `Sprite::Update` draws the sprite where its rect
is, and the mirror texture is 64 by 8. -/
def TilterEnv.sample : TilterEnv :=
  { contains := fun p r => decide (r.x < p.x ∧ p.x < r.x + r.z ∧ r.y < p.y ∧ p.y < r.y + r.w)
    getVectorFromAngle := fun a => if a = 0 then ⟨1, 0⟩ else ⟨0, 1⟩
    spriteUpdate := fun sp _ => { sp with drawRect := sp.rect }
    mirrorTextureDim := ⟨64, 8⟩ }

/-- A sample Tilter as the constructor leaves it for pivot `(100, 100)` and
initial angle `0` in the sample environment: base sprite on the rect
`(90, 90, 20, 20)`, nothing pressed, endpoint cache not calculated. -/
def Tilter.sample : Tilter :=
  { sprite := ⟨⟨90, 90, 20, 20⟩, ⟨90, 90, 20, 20⟩, ⟨1, 1, 1, 1⟩, 0⟩
    mirror := ⟨⟨68, 96, 64, 8⟩, ⟨68, 96, 64, 8⟩, ⟨1, 1, 1, 1⟩, 0⟩
    pivot := ⟨100, 100⟩
    angle := 0
    initialAngleVector := ⟨1, 0⟩
    prevClicked := false
    clicked := false
    selected := false
    changed := false
    calculatedThisFrame := false
    prevMouse := ⟨0, 0⟩
    mirrorPoints := ⟨0, 0, 0, 0⟩ }

/-- The sample Tilter in the middle of a drag, pointer last seen at
`(100, 100)`. -/
def Tilter.sampleDragging : Tilter :=
  { Tilter.sample with clicked := true, selected := true, prevMouse := ⟨100, 100⟩ }

/-! ## Predicates used in the proofs -/

/-- An operation respects the gate when its calls replay without violation
from the thread flag it starts with and end on the thread flag it leaves. -/
def Tracks (f : App → App × List Act) : Prop :=
  ∀ s, gate s.submitDrawJoinable (f s).2 = some (f s).1.submitDrawJoinable

/-- The part of the state a window event cannot reach. -/
structure SameCore (s t : App) : Prop where
  previousInput : t.previousInput = s.previousInput
  target : t.target = s.target
  scale : t.scale = s.scale
  timer : t.timer = s.timer
  finished : t.finishedDrawSubmit = s.finishedDrawSubmit
  monitor : t.windowMonitor = s.windowMonitor
  close : t.shouldClose = s.shouldClose

/-- The state `Tilter::Update` has reached at line 22, before the hover test. -/
def Tilter.latched (input : Controls) (t : Tilter) : Tilter :=
  { t with prevClicked := t.clicked, clicked := input.LeftMouse,
           sprite := t.sprite.setColour ⟨1, 1, 1, 1⟩ }

/-- The endpoint cache is valid: either not calculated, or holding the
endpoints for the current angle. -/
def CacheValid (env : TilterEnv) (t : Tilter) : Prop :=
  t.calculatedThisFrame = true → t.mirrorPoints = mirrorEndpoints env t.pivot t.angle

/-! ## Proofs: submission gate -/

theorem gate_append (o : Bool) (a c : List Act) :
    gate o (a ++ c) = (gate o a).bind fun o1 => gate o1 c := by
  induction a generalizing o with
  | nil => simp [gate]
  | cons x t ih =>
    cases x <;> cases o <;> simp [gate, ih]

theorem Tracks.andThen {f g : App → App × List Act} (hf : Tracks f) (hg : Tracks g) :
    Tracks fun s => andThen (f s) g := by
  intro s
  simp [GDTVJam.andThen, gate_append, hf s, hg (f s).1]

theorem tracks_joinSubmitDraw : Tracks joinSubmitDraw := by
  intro s
  unfold joinSubmitDraw
  cases h : s.submitDrawJoinable <;> simp [gate, h]

theorem tracks_resize (w h : Int) : Tracks (resize w h) := by
  unfold resize
  refine Tracks.andThen tracks_joinSubmitDraw ?_
  intro s
  dsimp only
  split <;> simp [gate]

theorem tracks_dispatch (e : Event) : Tracks (dispatch e) := by
  cases e with
  | framebufferSize w h => exact tracks_resize w h
  | _ => intro s; simp [dispatch, gate]

theorem tracks_glfwPollEvents (es : List Event) : Tracks (glfwPollEvents es) := by
  induction es with
  | nil => intro s; simp [glfwPollEvents, gate]
  | cons e es ih =>
    have := Tracks.andThen (tracks_dispatch e) ih
    intro s
    simpa [glfwPollEvents] using this s

theorem tracks_fullscreenToggle : Tracks fullscreenToggle := by
  intro s
  unfold fullscreenToggle
  split
  · split <;> simp [gate]
  · simp [gate]

theorem tracks_closeRequest : Tracks closeRequest := by
  intro s
  unfold closeRequest
  split <;> simp [gate]

theorem tracks_preUpdate (f : Frame) : Tracks (preUpdate f) := by
  unfold preUpdate
  refine Tracks.andThen (Tracks.andThen (Tracks.andThen (tracks_glfwPollEvents _) ?_)
    tracks_fullscreenToggle) tracks_closeRequest
  intro s
  simp [gate]

theorem tracks_moveCamera : Tracks moveCamera := by
  intro s
  simp [moveCamera, gate]

theorem tracks_postUpdate (f : Frame) : Tracks (postUpdate f) := by
  intro s
  simp [postUpdate, gate]

theorem tracks_update (f : Frame) : Tracks (update f) := by
  unfold update
  exact Tracks.andThen (Tracks.andThen (tracks_preUpdate f) tracks_moveCamera)
    (tracks_postUpdate f)

theorem tracks_draw (b : Build) : Tracks (draw b) := by
  intro s
  unfold draw
  split
  · simp [gate]
  · rcases b with ⟨v, g, m⟩
    cases v <;> cases g <;> cases m <;> cases h : s.submitDrawJoinable <;>
      simp [GDTVJam.andThen, joinSubmitDraw, finishDraw, gate, h]

theorem tracks_apply (b : Build) (o : Op) : Tracks (o.apply b) := by
  cases o with
  | draw => exact tracks_draw b
  | resize w h => exact tracks_resize w h
  | update f => exact tracks_update f
  | endDrawStores v => intro s; simp [Op.apply, gate]

theorem tracks_runOps (b : Build) (ops : List Op) : Tracks (runOps b ops) := by
  induction ops with
  | nil => intro s; simp [runOps, gate]
  | cons o os ih =>
    have := Tracks.andThen (tracks_apply b o) ih
    intro s
    simpa [runOps] using this s

/-- The replay does reject what the gate forbids: a second submission thread
before a join, and `Begin2DDraw` while a submission is outstanding. -/
theorem gate_rejects_overlap :
    gate false [Act.submitThread, Act.submitThread] = none ∧
    gate false [Act.submitThread, Act.begin2DDraw] = none ∧
    gate false [Act.submitThread, Act.join, Act.begin2DDraw, Act.submitThread] = some true := by
  decide

/-- The calls of a short run under the Vulkan build from the sample state:
draw, update, draw, resize, draw.  Every submission is joined before the
next `Begin2DDraw`, and `resize` joins the one in flight. -/
theorem runOps_sample_calls :
    (runOps ⟨true, false, false⟩
        [Op.draw, Op.update (Frame.ofEvents []), Op.draw, Op.resize 640 480, Op.draw]
        App.sample).2
      = [Act.begin2DDraw, Act.mapDraw, Act.submitThread,
         Act.controlsUpdate, Act.cameraSetScale 1, Act.cameraTarget ⟨0, 0⟩, Act.mapUpdate,
         Act.set2DViewMatrixAndScale, Act.timerUpdate,
         Act.join, Act.begin2DDraw, Act.mapDraw, Act.submitThread,
         Act.join, Act.framebufferResize,
         Act.begin2DDraw, Act.mapDraw, Act.submitThread] := by
  norm_num [runOps, Op.apply, andThen, draw, finishDraw, joinSubmitDraw, update, preUpdate,
    glfwPollEvents, fullscreenToggle, closeRequest, moveCamera, postUpdate, resize,
    App.sample, Frame.ofEvents, Input.idle, Controls.idle, GLFW_KEY_F, GLFW_KEY_ESCAPE]

/-- C1: over every sequence of `App::draw`, `App::resize` and `App::update`
calls (and stores of the completion flag by the submission task), from every
state, the calls made replay without violation against the outstanding
submission flag: no submission thread is started while an earlier one has
not been joined, `Begin2DDraw` is never called while one is outstanding, and
`submitDraw.joinable()` is that flag at the end. -/
theorem C1_submission_gate (b : Build) (ops : List Op) (s : App) :
    gate s.submitDrawJoinable (runOps b ops s).2
      = some (runOps b ops s).1.submitDrawJoinable :=
  tracks_runOps b ops s

/-! ## Proofs: what a poll and an update leave alone -/

theorem joinSubmitDraw_fst (s : App) :
    (joinSubmitDraw s).1 = { s with submitDrawJoinable := false } := by
  unfold joinSubmitDraw
  cases h : s.submitDrawJoinable <;> simp
  cases s; simp_all

theorem joinSubmitDraw_noDraw (s : App) : ∀ a ∈ (joinSubmitDraw s).2, a = Act.join := by
  unfold joinSubmitDraw
  split <;> simp

theorem SameCore.refl (s : App) : SameCore s s := ⟨rfl, rfl, rfl, rfl, rfl, rfl, rfl⟩

theorem SameCore.trans {s t u : App} (h1 : SameCore s t) (h2 : SameCore t u) : SameCore s u :=
  ⟨h2.previousInput.trans h1.previousInput, h2.target.trans h1.target,
   h2.scale.trans h1.scale, h2.timer.trans h1.timer, h2.finished.trans h1.finished,
   h2.monitor.trans h1.monitor, h2.close.trans h1.close⟩

theorem resize_fst (w h : Int) (s : App) :
    (resize w h s).1 = { s with submitDrawJoinable := false, mWindowWidth := w,
                                mWindowHeight := h } := by
  simp only [resize, andThen, joinSubmitDraw_fst]
  split <;> rfl

theorem resize_acts (w h : Int) (s : App) :
    ∀ a ∈ (resize w h s).2, a = Act.join ∨ a = Act.framebufferResize := by
  intro a ha
  simp only [resize, andThen, List.mem_append] at ha
  rcases ha with ha | ha
  · exact Or.inl (joinSubmitDraw_noDraw s a ha)
  · split at ha <;> simp_all

theorem dispatch_sameCore (e : Event) (s : App) : SameCore s (dispatch e s).1 := by
  cases e <;> simp only [dispatch, resize_fst] <;> exact ⟨rfl, rfl, rfl, rfl, rfl, rfl, rfl⟩

theorem dispatch_acts (e : Event) (s : App) :
    ∀ a ∈ (dispatch e s).2, a = Act.join ∨ a = Act.framebufferResize := by
  cases e with
  | framebufferSize w h => exact resize_acts w h s
  | _ => simp [dispatch]

theorem poll_sameCore (es : List Event) (s : App) : SameCore s (glfwPollEvents es s).1 := by
  induction es generalizing s with
  | nil => exact SameCore.refl s
  | cons e es ih =>
    simp only [glfwPollEvents, andThen]
    exact (dispatch_sameCore e s).trans (ih _)

theorem poll_acts (es : List Event) (s : App) :
    ∀ a ∈ (glfwPollEvents es s).2, a = Act.join ∨ a = Act.framebufferResize := by
  induction es generalizing s with
  | nil => simp [glfwPollEvents]
  | cons e es ih =>
    intro a ha
    simp only [glfwPollEvents, andThen, List.mem_append] at ha
    rcases ha with ha | ha
    · exact dispatch_acts e s a ha
    · exact ih _ a ha

/-- Without framebuffer-size events a poll leaves the window size alone. -/
theorem poll_size (es : List Event) (s : App)
    (hes : ∀ e ∈ es, e.isFramebufferSize = false) :
    (glfwPollEvents es s).1.mWindowWidth = s.mWindowWidth ∧
    (glfwPollEvents es s).1.mWindowHeight = s.mWindowHeight := by
  induction es generalizing s with
  | nil => simp [glfwPollEvents]
  | cons e es ih =>
    have he := hes e (List.mem_cons_self _ _)
    have ht := ih (dispatch e s).1 (fun x hx => hes x (List.mem_cons_of_mem _ hx))
    simp only [glfwPollEvents, andThen]
    cases e <;> simp_all [dispatch, Event.isFramebufferSize]

/-- Without key events a poll leaves the key array alone. -/
theorem poll_keys (es : List Event) (s : App) (hes : ∀ e ∈ es, e.isKey = false) :
    (glfwPollEvents es s).1.input.Keys = s.input.Keys := by
  induction es generalizing s with
  | nil => simp [glfwPollEvents]
  | cons e es ih =>
    have he := hes e (List.mem_cons_self _ _)
    have ht := ih (dispatch e s).1 (fun x hx => hes x (List.mem_cons_of_mem _ hx))
    simp only [glfwPollEvents, andThen]
    rw [ht]
    cases e <;> simp_all [dispatch, Event.isKey, resize_fst, mouse_button_callback]
    · split <;> (try split) <;> (try split) <;> rfl

theorem poll_noToggle (es : List Event) (s : App) :
    (glfwPollEvents es s).2.any Act.isSetWindowMonitor = false := by
  rw [List.any_eq_false]
  intro a ha
  rcases poll_acts es s a ha with rfl | rfl <;> simp [Act.isSetWindowMonitor]

theorem poll_noDraw (es : List Event) (s : App) :
    (glfwPollEvents es s).2.any Act.isDrawCall = false := by
  rw [List.any_eq_false]
  intro a ha
  rcases poll_acts es s a ha with rfl | rfl <;> simp [Act.isDrawCall]

theorem fullscreenToggle_input (s : App) :
    (fullscreenToggle s).1.input = s.input ∧
    (fullscreenToggle s).1.previousInput = s.previousInput ∧
    (fullscreenToggle s).1.shouldClose = s.shouldClose := by
  unfold fullscreenToggle
  split
  · split <;> simp
  · simp

/-- The state in which `App::update` on `f` from `s` leaves the snapshots:
both hold the keys as the poll left them. -/
theorem update_keys (f : Frame) (s : App) :
    (update f s).1.input.Keys = (glfwPollEvents f.events s).1.input.Keys ∧
    (update f s).1.previousInput.Keys = (glfwPollEvents f.events s).1.input.Keys := by
  simp only [update, preUpdate, andThen, postUpdate, moveCamera, closeRequest]
  constructor <;> split <;> simp [fullscreenToggle_input]

/-- An iteration toggles exactly on a press edge of F between the previous
snapshot and the snapshot after the poll. -/
theorem firesToggle_iff (f : Frame) (s : App) :
    firesToggle f s = true ↔
      ((glfwPollEvents f.events s).1.input.Keys GLFW_KEY_F = true ∧
       s.previousInput.Keys GLFW_KEY_F = false) := by
  have hc := (poll_sameCore f.events s).previousInput
  simp only [firesToggle, update, preUpdate, andThen, postUpdate, moveCamera, closeRequest,
    List.any_append, poll_noToggle, Bool.false_or]
  unfold fullscreenToggle
  simp only [hc]
  cases h1 : (glfwPollEvents f.events s).1.input.Keys GLFW_KEY_F <;>
    cases h2 : s.previousInput.Keys GLFW_KEY_F <;>
    cases h3 : (glfwPollEvents f.events s).1.windowMonitor <;>
    simp [Act.isSetWindowMonitor] <;> split <;> simp [Act.isSetWindowMonitor]

theorem poll_noCloseAct (es : List Event) (s : App) :
    (glfwPollEvents es s).2.any Act.isSetWindowShouldClose = false := by
  rw [List.any_eq_false]
  intro a ha
  rcases poll_acts es s a ha with rfl | rfl <;> simp [Act.isSetWindowShouldClose]

theorem fullscreenToggle_noCloseAct (s : App) :
    (fullscreenToggle s).2.any Act.isSetWindowShouldClose = false := by
  unfold fullscreenToggle
  split
  · split <;> simp [Act.isSetWindowShouldClose]
  · simp

/-- An iteration requests shutdown exactly on a press edge of Escape. -/
theorem firesClose_iff (f : Frame) (s : App) :
    firesClose f s = true ↔
      ((glfwPollEvents f.events s).1.input.Keys GLFW_KEY_ESCAPE = true ∧
       s.previousInput.Keys GLFW_KEY_ESCAPE = false) := by
  have hc := (poll_sameCore f.events s).previousInput
  simp only [firesClose, update, preUpdate, andThen, postUpdate, moveCamera,
    List.any_append, poll_noCloseAct, fullscreenToggle_noCloseAct, Bool.false_or]
  unfold closeRequest
  simp only [fullscreenToggle_input, hc]
  cases h1 : (glfwPollEvents f.events s).1.input.Keys GLFW_KEY_ESCAPE <;>
    cases h2 : s.previousInput.Keys GLFW_KEY_ESCAPE <;>
    simp [Act.isSetWindowShouldClose]

/-- Fullscreen mode after an iteration: flipped when the toggle fired. -/
theorem update_windowMonitor (f : Frame) (s : App) :
    (update f s).1.windowMonitor
      = if firesToggle f s then !s.windowMonitor else s.windowMonitor := by
  have hc := (poll_sameCore f.events s).previousInput
  have hm := (poll_sameCore f.events s).monitor
  have key := firesToggle_iff f s
  have hfst : (update f s).1.windowMonitor
      = (fullscreenToggle { (glfwPollEvents f.events s).1 with controls := f.controls }).1.windowMonitor := by
    simp only [update, preUpdate, andThen, postUpdate, moveCamera, closeRequest]
    split <;> rfl
  rw [hfst]
  unfold fullscreenToggle
  simp only [hc, hm]
  cases h1 : (glfwPollEvents f.events s).1.input.Keys GLFW_KEY_F <;>
    cases h2 : s.previousInput.Keys GLFW_KEY_F <;>
    cases h3 : s.windowMonitor <;>
    cases h4 : firesToggle f s <;> simp_all

/-- The shutdown flag after an iteration: set when the request fired. -/
theorem update_shouldClose (f : Frame) (s : App) :
    (update f s).1.shouldClose = (s.shouldClose || firesClose f s) := by
  have hc := (poll_sameCore f.events s).previousInput
  have hm := (poll_sameCore f.events s).close
  have key := firesClose_iff f s
  have hfst : (update f s).1.shouldClose
      = (closeRequest (fullscreenToggle
          { (glfwPollEvents f.events s).1 with controls := f.controls }).1).1.shouldClose := by
    simp only [update, preUpdate, andThen, postUpdate, moveCamera]
  rw [hfst]
  unfold closeRequest
  simp only [fullscreenToggle_input, hc, hm]
  cases h1 : (glfwPollEvents f.events s).1.input.Keys GLFW_KEY_ESCAPE <;>
    cases h2 : s.previousInput.Keys GLFW_KEY_ESCAPE <;>
    cases h3 : s.shouldClose <;>
    cases h4 : firesClose f s <;> simp_all [fullscreenToggle_input]

/-- While F stays down after a snapshot in which it was down, nothing fires. -/
theorem toggleLog_held (fs : List Frame) (s : App)
    (hprev : s.previousInput.Keys GLFW_KEY_F = true) (hheld : heldThrough fs s = true) :
    toggleLog fs s = List.replicate fs.length false := by
  induction fs generalizing s with
  | nil => rfl
  | cons f fs ih =>
    simp only [heldThrough, Bool.and_eq_true] at hheld
    have h1 : firesToggle f s = false := by
      cases h : firesToggle f s
      · rfl
      · have := ((firesToggle_iff f s).1 h).2
        simp [hprev] at this
    have h2 : (update f s).1.previousInput.Keys GLFW_KEY_F = true := by
      rw [(update_keys f s).2]; exact hheld.1
    simp [toggleLog, h1, ih _ h2 hheld.2, List.replicate_succ]

/-- C3: an iteration toggles fullscreen if and only if F is down in the
snapshot after the poll and up in the previous-frame snapshot; and when F is
up in the previous snapshot, goes down in the first of some consecutive
iterations and is still down after the poll of each following one, the
toggle fires in the first iteration and in none of the following ones. -/
theorem C3_fullscreen_press_edge (s : App) (f : Frame) (fs : List Frame)
    (hprev : s.previousInput.Keys GLFW_KEY_F = false)
    (hheld : heldThrough (f :: fs) s = true) :
    (∀ (g : Frame) (a : App), firesToggle g a = true ↔
        ((glfwPollEvents g.events a).1.input.Keys GLFW_KEY_F = true ∧
         a.previousInput.Keys GLFW_KEY_F = false)) ∧
    toggleLog (f :: fs) s = true :: List.replicate fs.length false := by
  refine ⟨firesToggle_iff, ?_⟩
  simp only [heldThrough, Bool.and_eq_true] at hheld
  have h1 : firesToggle f s = true := (firesToggle_iff f s).2 ⟨hheld.1, hprev⟩
  have h2 : (update f s).1.previousInput.Keys GLFW_KEY_F = true := by
    rw [(update_keys f s).2]; exact hheld.1
  simp [toggleLog, h1, toggleLog_held fs _ h2 hheld.2]

/-- C3, at a press of F followed by two polls without key events and a poll
with a key repeat: the toggle fires in the first of the four iterations only. -/
theorem C3_fullscreen_press_edge_witness :
    toggleLog [Frame.ofEvents [Event.key 70 0 1 0], Frame.ofEvents [],
               Frame.ofEvents [Event.cursorPos 3 4],
               Frame.ofEvents [Event.key 70 0 2 0]] App.sample
      = [true, false, false, false] :=
  (C3_fullscreen_press_edge App.sample (Frame.ofEvents [Event.key 70 0 1 0])
    [Frame.ofEvents [], Frame.ofEvents [Event.cursorPos 3 4],
     Frame.ofEvents [Event.key 70 0 2 0]] (by decide) (by decide)).2

/-! ## Proofs: repeated polls without key events -/

/-- C4 (as stated, refuted): from the sample state, a `preUpdate` whose poll
delivers a press of F and of Escape enters fullscreen and requests shutdown;
a second `preUpdate` whose poll delivers nothing fires both again, and
leaves fullscreen mode. -/
theorem C4_preUpdate_refires :
    (preUpdate (Frame.ofEvents [Event.key 70 0 1 0, Event.key 256 0 1 0])
        App.sample).1.windowMonitor = true ∧
    (preUpdate (Frame.ofEvents [])
        (preUpdate (Frame.ofEvents [Event.key 70 0 1 0, Event.key 256 0 1 0])
          App.sample).1).1.windowMonitor = false ∧
    (preUpdate (Frame.ofEvents [])
        (preUpdate (Frame.ofEvents [Event.key 70 0 1 0, Event.key 256 0 1 0])
          App.sample).1).2
      = [Act.controlsUpdate, Act.setWindowMonitor false, Act.setWindowShouldClose] := by
  decide

/-- C4 (amended): `App::update` is idempotent with respect to repeated calls
with no new key events: after any update, an update whose poll delivers no
key events fires no fullscreen toggle and no shutdown request, and leaves
fullscreen mode and the shutdown flag as the first update left them. -/
theorem C4_update_idempotent (s : App) (f1 f2 : Frame)
    (hno : ∀ e ∈ f2.events, e.isKey = false) :
    firesToggle f2 (update f1 s).1 = false ∧
    firesClose f2 (update f1 s).1 = false ∧
    (update f2 (update f1 s).1).1.windowMonitor = (update f1 s).1.windowMonitor ∧
    (update f2 (update f1 s).1).1.shouldClose = (update f1 s).1.shouldClose := by
  have hk := update_keys f1 s
  have hp := poll_keys f2.events (update f1 s).1 hno
  have h1 : firesToggle f2 (update f1 s).1 = false := by
    cases h : firesToggle f2 (update f1 s).1
    · rfl
    · have := (firesToggle_iff f2 _).1 h
      rw [hp, hk.1, hk.2] at this
      simp_all
  have h2 : firesClose f2 (update f1 s).1 = false := by
    cases h : firesClose f2 (update f1 s).1
    · rfl
    · have := (firesClose_iff f2 _).1 h
      rw [hp, hk.1, hk.2] at this
      simp_all
  refine ⟨h1, h2, ?_, ?_⟩
  · rw [update_windowMonitor, h1]; simp
  · rw [update_shouldClose, h2]; simp

/-- C4 (amended), at a press of F and Escape followed by a poll that only
moves the pointer. -/
theorem C4_update_idempotent_witness :
    firesToggle (Frame.ofEvents [Event.key 70 0 1 0, Event.key 256 0 1 0]) App.sample = true ∧
    firesToggle (Frame.ofEvents [Event.cursorPos 1 2])
      (update (Frame.ofEvents [Event.key 70 0 1 0, Event.key 256 0 1 0]) App.sample).1 = false ∧
    (update (Frame.ofEvents [Event.cursorPos 1 2])
      (update (Frame.ofEvents [Event.key 70 0 1 0, Event.key 256 0 1 0])
        App.sample).1).1.windowMonitor = true :=
  ⟨by decide,
   (C4_update_idempotent App.sample
      (Frame.ofEvents [Event.key 70 0 1 0, Event.key 256 0 1 0])
      (Frame.ofEvents [Event.cursorPos 1 2]) (by decide)).1,
   by decide⟩

/-! ## Proofs: zero-area windows -/

theorem update_size (f : Frame) (s : App)
    (hev : ∀ e ∈ f.events, e.isFramebufferSize = false) :
    (update f s).1.mWindowWidth = s.mWindowWidth ∧
    (update f s).1.mWindowHeight = s.mWindowHeight := by
  have hp := poll_size f.events s hev
  have h1 : (update f s).1.mWindowWidth = (glfwPollEvents f.events s).1.mWindowWidth ∧
      (update f s).1.mWindowHeight = (glfwPollEvents f.events s).1.mWindowHeight := by
    simp only [update, preUpdate, andThen, postUpdate, moveCamera, closeRequest,
      fullscreenToggle]
    constructor <;> split <;> split <;> (try split) <;> simp
  rw [h1.1, h1.2]; exact hp

theorem update_finished (f : Frame) (s : App) :
    (update f s).1.finishedDrawSubmit = s.finishedDrawSubmit := by
  have hp := (poll_sameCore f.events s).finished
  rw [← hp]
  simp only [update, preUpdate, andThen, postUpdate, moveCamera, closeRequest,
    fullscreenToggle]
  split <;> split <;> (try split) <;> simp

theorem update_mapUpdate (f : Frame) (s : App) : Act.mapUpdate ∈ (update f s).2 := by
  simp [update, andThen, moveCamera]

theorem fullscreenToggle_noDraw (s : App) :
    (fullscreenToggle s).2.any Act.isDrawCall = false := by
  unfold fullscreenToggle
  split
  · split <;> simp [Act.isDrawCall]
  · simp

theorem closeRequest_noDraw (s : App) :
    (closeRequest s).2.any Act.isDrawCall = false := by
  unfold closeRequest
  split <;> simp [Act.isDrawCall]

theorem update_noDraw (f : Frame) (s : App) :
    (update f s).2.any Act.isDrawCall = false := by
  simp only [update, preUpdate, andThen, postUpdate, moveCamera,
    List.any_append, poll_noDraw, fullscreenToggle_noDraw, closeRequest_noDraw,
    Bool.false_or]
  simp [Act.isDrawCall]

theorem draw_records (b : Build) (s : App)
    (helig : b.MULTI_UPDATE_ON_SLOW_DRAW = true → s.finishedDrawSubmit = true) :
    Act.begin2DDraw ∈ (draw b s).2 ∧ Act.mapDraw ∈ (draw b s).2 := by
  unfold draw
  split
  · rename_i hc
    simp only [Bool.and_eq_true, Bool.not_eq_true'] at hc
    have := helig hc.1
    simp_all
  · simp [andThen]

theorem draw_isDrawCall (b : Build) (s : App) (h : Act.begin2DDraw ∈ (draw b s).2) :
    (draw b s).2.any Act.isDrawCall = true := by
  rw [List.any_eq_true]
  exact ⟨_, h, rfl⟩

/-- C2: in the loop of `App::run`, after `resize(width, height)`
an iteration whose poll brings no further resize, and whose draw is not held
back by the skip-if-busy policy, always runs the update (`testMap.Update` is
called), records a frame (`Begin2DDraw` and `testMap.Draw`) if and only if
`width != 0` and `height != 0`, and with a zero width or height makes no
draw call at all (no `Begin2DDraw`, `testMap.Draw`, submission or `EndDraw`). -/
theorem C2_run_zero_area_gate (b : Build) (s : App) (width height : Int) (f : Frame)
    (hev : ∀ e ∈ f.events, e.isFramebufferSize = false)
    (helig : b.MULTI_UPDATE_ON_SLOW_DRAW = true → s.finishedDrawSubmit = true) :
    Act.mapUpdate ∈ (runIteration b f (resize width height s).1).2 ∧
    ((Act.begin2DDraw ∈ (runIteration b f (resize width height s).1).2 ∧
      Act.mapDraw ∈ (runIteration b f (resize width height s).1).2)
        ↔ (width ≠ 0 ∧ height ≠ 0)) ∧
    ((runIteration b f (resize width height s).1).2.any Act.isDrawCall = true
        ↔ (width ≠ 0 ∧ height ≠ 0)) := by
  have hsz := update_size f (resize width height s).1 hev
  have hfin := update_finished f (resize width height s).1
  have hnd := update_noDraw f (resize width height s).1
  have hmu := update_mapUpdate f (resize width height s).1
  have hrw : (resize width height s).1.mWindowWidth = width := by rw [resize_fst]
  have hrh : (resize width height s).1.mWindowHeight = height := by rw [resize_fst]
  have hrf : (resize width height s).1.finishedDrawSubmit = s.finishedDrawSubmit := by
    rw [resize_fst]
  rw [hrw, hrh] at hsz
  rw [hrf] at hfin
  have hnb : Act.begin2DDraw ∉ (update f (resize width height s).1).2 := by
    intro hmem
    have := (List.any_eq_false.1 hnd) _ hmem
    simp [Act.isDrawCall] at this
  by_cases hz : width ≠ 0 ∧ height ≠ 0
  · have hcond : ((update f (resize width height s).1).1.mWindowWidth != 0 &&
        (update f (resize width height s).1).1.mWindowHeight != 0) = true := by
      rw [hsz.1, hsz.2]; simp [hz.1, hz.2]
    have hrec := draw_records b (update f (resize width height s).1).1
      (fun hm => by rw [hfin]; exact helig hm)
    have hany := draw_isDrawCall b _ hrec.1
    simp only [runIteration, andThen, hcond, if_true, List.mem_append, List.any_append]
    refine ⟨Or.inl hmu, ?_, ?_⟩
    · simp [hz, hrec.1, hrec.2]
    · simp [hz, hany]
  · have hcond : ((update f (resize width height s).1).1.mWindowWidth != 0 &&
        (update f (resize width height s).1).1.mWindowHeight != 0) = false := by
      rw [hsz.1, hsz.2]
      by_cases hw : width = 0
      · simp [hw]
      · have hh : height = 0 := by
          by_contra hh
          exact hz ⟨hw, hh⟩
        simp [hh]
    simp only [runIteration, andThen, hcond, Bool.false_eq_true, if_false, List.append_nil]
    refine ⟨hmu, ?_, ?_⟩
    · simp only [hz, iff_false]
      exact fun h => hnb h.1
    · simp [hz, hnd]

/-- C2, on the sample state under the Vulkan build with
skip-if-busy: after `resize(0, 0)` the iteration makes the calls of the
update only; after `resize(800, 600)` it also records and submits a frame. -/
theorem C2_run_zero_area_gate_witness :
    ((runIteration ⟨true, false, true⟩ (Frame.ofEvents []) (resize 0 0 App.sample).1).2.any
        Act.isDrawCall = true ↔ ((0 : Int) ≠ 0 ∧ (0 : Int) ≠ 0)) ∧
    ((runIteration ⟨true, false, true⟩ (Frame.ofEvents [])
        (resize 800 600 (resize 0 0 App.sample).1).1).2.any
        Act.isDrawCall = true ↔ ((800 : Int) ≠ 0 ∧ (600 : Int) ≠ 0)) :=
  ⟨(C2_run_zero_area_gate ⟨true, false, true⟩ App.sample 0 0 (Frame.ofEvents [])
      (by decide) (by decide)).2.2,
   (C2_run_zero_area_gate ⟨true, false, true⟩ (resize 0 0 App.sample).1 800 600
      (Frame.ofEvents []) (by decide) (by decide)).2.2⟩

/-- Where the zero-area test lives: it is the `if` in front of the only call
of `App::draw`, in `App::run`.  The body of `App::draw` has no size test of
its own, as its calls on a 0x0 window under the Vulkan build show. -/
theorem draw_body_has_no_size_test :
    (resize 0 0 App.sample).1.mWindowWidth = 0 ∧
    (resize 0 0 App.sample).1.mWindowHeight = 0 ∧
    (draw ⟨true, false, false⟩ (resize 0 0 App.sample).1).2
      = [Act.begin2DDraw, Act.mapDraw, Act.submitThread] := by
  decide

/-! ## Proofs: camera movement -/

theorem fullscreenToggle_camera (s : App) :
    (fullscreenToggle s).1.target = s.target ∧ (fullscreenToggle s).1.scale = s.scale ∧
    (fullscreenToggle s).1.timer = s.timer ∧ (fullscreenToggle s).1.controls = s.controls := by
  unfold fullscreenToggle
  split
  · split <;> simp
  · simp

theorem closeRequest_camera (s : App) :
    (closeRequest s).1.target = s.target ∧ (closeRequest s).1.scale = s.scale ∧
    (closeRequest s).1.timer = s.timer ∧ (closeRequest s).1.controls = s.controls := by
  unfold closeRequest
  split <;> simp

theorem preUpdate_camera (f : Frame) (s : App) :
    (preUpdate f s).1.target = s.target ∧ (preUpdate f s).1.scale = s.scale ∧
    (preUpdate f s).1.timer = s.timer ∧ (preUpdate f s).1.controls = f.controls := by
  have hp := poll_sameCore f.events s
  simp only [preUpdate, andThen, closeRequest_camera, fullscreenToggle_camera]
  exact ⟨hp.target, hp.scale, hp.timer, trivial⟩

theorem update_timer (f : Frame) (s : App) :
    (update f s).1.timer.FrameElapsed = f.elapsed := by
  simp [update, andThen, postUpdate]

/-- One iteration moves the target by `camspeed * FrameElapsed` along the
net direction of the held keys, and keeps the scale when no zoom key is held. -/
theorem update_camera (f : Frame) (s : App)
    (hplus : f.controls.Plus = false) (hminus : f.controls.Minus = false) :
    (update f s).1.target.x
        = s.target.x + dirX f.controls * (s.scale * s.timer.FrameElapsed) ∧
    (update f s).1.target.y
        = s.target.y + dirY f.controls * (s.scale * s.timer.FrameElapsed) ∧
    (update f s).1.scale = s.scale := by
  obtain ⟨ht, hs, hti, hc⟩ := preUpdate_camera f s
  simp only [update, andThen, postUpdate, moveCamera, ht, hs, hti, hc, hplus, hminus,
    dirX, dirY]
  cases f.controls.Up <;> cases f.controls.Down <;> cases f.controls.Left <;>
    cases f.controls.Right <;> refine ⟨?_, ?_, ?_⟩ <;> (try simp) <;> (try ring)

theorem cameraKeys_eq {c d : Controls} (h : d.cameraKeys = c.cameraKeys) :
    dirX d = dirX c ∧ dirY d = dirY c ∧ d.Plus = c.Plus ∧ d.Minus = c.Minus := by
  simp only [Controls.cameraKeys, List.cons.injEq, and_true] at h
  obtain ⟨h1, h2, h3, h4, h5, h6⟩ := h
  simp [dirX, dirY, h1, h2, h3, h4, h5, h6]

theorem runUpdates_camera (c : Controls) (hplus : c.Plus = false) (hminus : c.Minus = false)
    (frames : List Frame) (s : App)
    (hheld : ∀ f ∈ frames, f.controls.cameraKeys = c.cameraKeys) :
    (runUpdates frames s).target.x
        = s.target.x + dirX c * (s.scale * (elapsedRead frames s).sum) ∧
    (runUpdates frames s).target.y
        = s.target.y + dirY c * (s.scale * (elapsedRead frames s).sum) := by
  induction frames generalizing s with
  | nil => simp [runUpdates, elapsedRead]
  | cons f fs ih =>
    obtain ⟨hx, hy, hp, hm⟩ := cameraKeys_eq (hheld f (List.mem_cons_self _ _))
    obtain ⟨ux, uy, us⟩ := update_camera f s (hp.trans hplus) (hm.trans hminus)
    obtain ⟨ix, iy⟩ := ih (update f s).1 (fun g hg => hheld g (List.mem_cons_of_mem _ hg))
    simp only [runUpdates, elapsedRead, List.sum_cons, ix, iy, ux, uy, us, hx, hy]
    constructor <;> ring

theorem elapsedRead_steady (c : Controls) (t : ℚ) (n : Nat) (s : App)
    (hs : s.timer.FrameElapsed = t) :
    elapsedRead (steadyFrames c t n) s = List.replicate n t := by
  induction n generalizing s with
  | zero => rfl
  | succ n ih =>
    simp only [steadyFrames, List.replicate_succ, elapsedRead, hs]
    congr 1
    exact ih _ (update_timer _ s)

theorem Vec2.eq_of_components {a b : Vec2} (hx : a.x = b.x) (hy : a.y = b.y) : a = b := by
  cases a; cases b; simp_all

/-- The frame times read by consecutive iterations are the stored one
followed by the times measured by `timer.Update()` in all iterations but the
last: each update consumes the time measured at the end of the previous one. -/
theorem elapsedRead_eq (frames : List Frame) (s : App) :
    elapsedRead frames s
      = (s.timer.FrameElapsed :: frames.map Frame.elapsed).take frames.length := by
  induction frames generalizing s with
  | nil => rfl
  | cons f fs ih =>
    simp only [elapsedRead, List.map_cons, List.length_cons, List.take_succ_cons]
    rw [ih, update_timer]

/-- C5 (as stated, refuted): with a direction key held the displacement is
not always the same for `n` frames of frame time `t` and `2n` frames of
frame time `t/2`.  With `Right` and the zoom key `Plus` held, one frame of
frame time `1` moves the target by `1` and two frames of frame time `1/2`
move it by `3999/4000`, because `camspeed` follows the scale.  And with
`Right` alone from one and the same state (stored frame time `0`), two
iterations measuring `1` move it by `1` and four measuring `1/2` by `3/2`,
because each update reads the time measured by the previous one. -/
theorem C5_zoom_and_timer_lag :
    (runUpdates (steadyFrames Controls.rightPlusHeld 1 1)
        { App.sample with timer := ⟨1⟩ }).target.x = 1 ∧
    (runUpdates (steadyFrames Controls.rightPlusHeld (1 / 2) 2)
        { App.sample with timer := ⟨1 / 2⟩ }).target.x = 3999 / 4000 ∧
    (runUpdates (steadyFrames Controls.rightHeld 1 2) App.sample).target.x = 1 ∧
    (runUpdates (steadyFrames Controls.rightHeld (1 / 2) 4) App.sample).target.x = 3 / 2 := by
  refine ⟨?_, ?_, ?_, ?_⟩ <;>
    norm_num [runUpdates, steadyFrames, update, preUpdate, andThen, glfwPollEvents,
      fullscreenToggle, closeRequest, moveCamera, postUpdate, App.sample, Input.idle,
      Controls.rightHeld, Controls.rightPlusHeld, Controls.idle, GLFW_KEY_F,
      GLFW_KEY_ESCAPE, List.replicate]

/-- C5 (amended): over consecutive iterations of `App::update` in which the
direction keys are held as in `c` and no zoom key is held, the camera target
moves along each axis by the net direction times `camspeed` (the scale)
times the sum of the frame times the iterations read, which are the stored
`FrameElapsed` followed by the times `timer.Update()` measures in all
iterations but the last.  Hence a second run with the same keys from a state
with the same target and scale, whose read frame times have the same sum,
ends on the same target; in particular `n` iterations that all read `t` and
`2n` iterations that all read `t/2` do. -/
theorem C5_camera_displacement (c : Controls)
    (hplus : c.Plus = false) (hminus : c.Minus = false)
    (frames : List Frame) (s : App)
    (hheld : ∀ f ∈ frames, f.controls.cameraKeys = c.cameraKeys) :
    (runUpdates frames s).target.x
        = s.target.x + dirX c * (s.scale *
            ((s.timer.FrameElapsed :: frames.map Frame.elapsed).take frames.length).sum) ∧
    (runUpdates frames s).target.y
        = s.target.y + dirY c * (s.scale *
            ((s.timer.FrameElapsed :: frames.map Frame.elapsed).take frames.length).sum) ∧
    (∀ (frames2 : List Frame) (s2 : App),
      (∀ f ∈ frames2, f.controls.cameraKeys = c.cameraKeys) →
      s2.target = s.target → s2.scale = s.scale →
      ((s2.timer.FrameElapsed :: frames2.map Frame.elapsed).take frames2.length).sum
        = ((s.timer.FrameElapsed :: frames.map Frame.elapsed).take frames.length).sum →
      (runUpdates frames2 s2).target = (runUpdates frames s).target) ∧
    ∀ (n : Nat) (t : ℚ),
      (runUpdates (steadyFrames c t n) { s with timer := ⟨t⟩ }).target
        = (runUpdates (steadyFrames c (t / 2) (2 * n)) { s with timer := ⟨t / 2⟩ }).target := by
  obtain ⟨hx, hy⟩ := runUpdates_camera c hplus hminus frames s hheld
  rw [elapsedRead_eq] at hx hy
  refine ⟨hx, hy, ?_, ?_⟩
  · intro frames2 s2 hheld2 htarget hscale hsum
    obtain ⟨gx, gy⟩ := runUpdates_camera c hplus hminus frames2 s2 hheld2
    rw [elapsedRead_eq, hsum, htarget, hscale] at gx gy
    exact Vec2.eq_of_components (gx.trans hx.symm) (gy.trans hy.symm)
  · intro n t
    have hst : ∀ (u : ℚ) (k : Nat), ∀ f ∈ steadyFrames c u k,
        f.controls.cameraKeys = c.cameraKeys := by
      intro u k f hf
      simp only [steadyFrames, List.mem_replicate] at hf
      rw [hf.2]
    obtain ⟨ax, ay⟩ := runUpdates_camera c hplus hminus (steadyFrames c t n)
      { s with timer := ⟨t⟩ } (hst t n)
    obtain ⟨bx, bry⟩ := runUpdates_camera c hplus hminus (steadyFrames c (t / 2) (2 * n))
      { s with timer := ⟨t / 2⟩ } (hst (t / 2) (2 * n))
    rw [elapsedRead_steady c t n _ rfl] at ax ay
    rw [elapsedRead_steady c (t / 2) (2 * n) _ rfl] at bx bry
    have hsum : (List.replicate (2 * n) (t / 2)).sum = (List.replicate n t).sum := by
      simp only [List.sum_replicate, nsmul_eq_mul]
      push_cast
      ring
    rw [hsum] at bx bry
    exact Vec2.eq_of_components (ax.trans bx.symm) (ay.trans bry.symm)

/-- C5 (amended), with `Right` held from the sample state with stored frame
time `1/2`: two iterations measuring `1/3` and `7` read `1/2` and `1/3` and
move the target from `0` to `1 * (1 * (1/2 + 1/3)) = 5/6` along x (the `7`
measured last is not read); and two iterations reading `1/2` and four
reading `1/4` both end on `(1, 0)`. -/
theorem C5_camera_displacement_witness :
    (runUpdates [⟨[], Controls.rightHeld, 1 / 3⟩, ⟨[Event.cursorPos 2 3], Controls.rightHeld, 7⟩]
        { App.sample with timer := ⟨1 / 2⟩ }).target.x = 5 / 6 ∧
    (runUpdates (steadyFrames Controls.rightHeld (1 / 2) 2)
        { App.sample with timer := ⟨1 / 2⟩ }).target = ⟨1, 0⟩ ∧
    (runUpdates (steadyFrames Controls.rightHeld (1 / 2 / 2) (2 * 2))
        { App.sample with timer := ⟨1 / 2 / 2⟩ }).target = ⟨1, 0⟩ :=
  have hk : ∀ f ∈ [(⟨[], Controls.rightHeld, 1 / 3⟩ : Frame),
      ⟨[Event.cursorPos 2 3], Controls.rightHeld, 7⟩],
      f.controls.cameraKeys = Controls.rightHeld.cameraKeys := by
    intro f hf
    simp only [List.mem_cons, List.mem_singleton, List.not_mem_nil, or_false] at hf
    rcases hf with rfl | rfl <;> rfl
  have h0 := (C5_camera_displacement Controls.rightHeld rfl rfl
    [⟨[], Controls.rightHeld, 1 / 3⟩, ⟨[Event.cursorPos 2 3], Controls.rightHeld, 7⟩]
    { App.sample with timer := ⟨1 / 2⟩ } hk)
  have h1 : (runUpdates (steadyFrames Controls.rightHeld (1 / 2) 2)
      { App.sample with timer := ⟨1 / 2⟩ }).target = ⟨1, 0⟩ := by
    norm_num [runUpdates, steadyFrames, update, preUpdate, andThen, glfwPollEvents,
      fullscreenToggle, closeRequest, moveCamera, postUpdate, App.sample, Input.idle,
      Controls.rightHeld, Controls.idle, GLFW_KEY_F, GLFW_KEY_ESCAPE]
  ⟨h0.1.trans (by norm_num [App.sample, dirX, Controls.rightHeld, Controls.idle]),
   h1, (h0.2.2.2 2 (1 / 2)) ▸ h1⟩

/-! ## Proofs: coordinate correction -/

/-- C6: `App::correctedPos` equals its reference definition at every input
position: the identity when `settings::USE_TARGET_RESOLUTION` is off, and
`(p.x * (TARGET_WIDTH * scale / windowWidth),
  p.y * (TARGET_HEIGHT * scale / windowHeight))` when it is on. -/
theorem C6_correctedPos_reference (cfg : Settings) (s : App) (p : Vec2) :
    correctedPos cfg s p
        = correctedPosRef cfg.USE_TARGET_RESOLUTION cfg.TARGET_WIDTH cfg.TARGET_HEIGHT
            s.scale s.mWindowWidth s.mWindowHeight p ∧
    correctedPos { cfg with USE_TARGET_RESOLUTION := false } s p = p ∧
    correctedPos { cfg with USE_TARGET_RESOLUTION := true } s p
        = ⟨p.x * ((cfg.TARGET_WIDTH : ℚ) * s.scale / (s.mWindowWidth : ℚ)),
           p.y * ((cfg.TARGET_HEIGHT : ℚ) * s.scale / (s.mWindowHeight : ℚ))⟩ := by
  refine ⟨?_, rfl, rfl⟩
  unfold correctedPos correctedPosRef
  cases cfg.USE_TARGET_RESOLUTION <;> simp

/-! ## Proofs: Tilter -/

theorem hoverStep_fields (env : TilterEnv) (input : Controls) (t : Tilter) :
    (t.hoverStep env input).angle = t.angle ∧
    (t.hoverStep env input).pivot = t.pivot ∧
    (t.hoverStep env input).initialAngleVector = t.initialAngleVector ∧
    (t.hoverStep env input).clicked = t.clicked ∧
    (t.hoverStep env input).changed = t.changed ∧
    (t.hoverStep env input).calculatedThisFrame = t.calculatedThisFrame ∧
    (t.hoverStep env input).mirrorPoints = t.mirrorPoints := by
  unfold Tilter.hoverStep
  split
  · split
    · simp
    · split <;> simp
  · simp

theorem hoverStep_selected (env : TilterEnv) (input : Controls) (t : Tilter) :
    (t.hoverStep env input).selected
      = (t.selected ||
          (env.contains input.MousePos t.sprite.drawRect && t.clicked && !t.prevClicked)) := by
  unfold Tilter.hoverStep Sprite.getDrawRect
  cases env.contains input.MousePos t.sprite.drawRect <;> cases h1 : t.selected <;>
    cases h2 : t.clicked <;> cases h3 : t.prevClicked <;> simp [h1]

theorem hoverStep_of_selected (env : TilterEnv) (input : Controls) (t : Tilter)
    (h : t.selected = true) : t.hoverStep env input = t := by
  unfold Tilter.hoverStep
  simp [h]

theorem dragStep_fields (input : Controls) (t : Tilter) :
    (t.dragStep input).pivot = t.pivot ∧
    (t.dragStep input).initialAngleVector = t.initialAngleVector ∧
    (t.dragStep input).mirrorPoints = t.mirrorPoints ∧
    (t.dragStep input).selected = (t.selected && t.clicked) ∧
    (t.dragStep input).clicked = t.clicked := by
  unfold Tilter.dragStep
  cases h1 : t.selected <;> cases h2 : t.clicked <;> simp [h1, h2]
  split <;> simp [h1, h2]

/-- One drag step: with the widget selected and the button down, the angle
moves by `movement * 0.2`; the flags change only when `movement` is nonzero. -/
theorem dragStep_dragging (input : Controls) (t : Tilter)
    (hsel : t.selected = true) (hclk : t.clicked = true) :
    (t.dragStep input).angle
      = t.angle + dragMovement t.prevMouse input.MousePos t.initialAngleVector * (1 / 5) ∧
    (t.dragStep input).prevMouse = input.MousePos ∧
    (t.dragStep input).changed
      = (t.changed ||
          decide (dragMovement t.prevMouse input.MousePos t.initialAngleVector ≠ 0)) ∧
    (t.dragStep input).calculatedThisFrame
      = (t.calculatedThisFrame &&
          decide (dragMovement t.prevMouse input.MousePos t.initialAngleVector = 0)) := by
  unfold Tilter.dragStep
  simp only [hsel, hclk, if_true, Bool.not_true, Bool.false_eq_true, if_false]
  generalize dragMovement t.prevMouse input.MousePos t.initialAngleVector = m
  by_cases hm : m = 0
  · simp [hm]
  · simp [hm]

/-- Without a drag in progress after the hover step, the drag block leaves
the angle and the flags alone. -/
theorem dragStep_idle (input : Controls) (t : Tilter) (h : (t.selected && t.clicked) = false) :
    (t.dragStep input).angle = t.angle ∧
    (t.dragStep input).changed = t.changed ∧
    (t.dragStep input).calculatedThisFrame = t.calculatedThisFrame := by
  unfold Tilter.dragStep
  cases h1 : t.selected <;> cases h2 : t.clicked <;> simp_all

theorem Update_fields (env : TilterEnv) (camRect : Vec4) (input : Controls) (scale : ℚ)
    (t : Tilter) :
    (t.Update env camRect input scale).angle
        = ((t.latched input).hoverStep env input |>.dragStep input).angle ∧
    (t.Update env camRect input scale).selected
        = ((t.latched input).hoverStep env input |>.dragStep input).selected ∧
    (t.Update env camRect input scale).prevMouse
        = ((t.latched input).hoverStep env input |>.dragStep input).prevMouse ∧
    (t.Update env camRect input scale).changed
        = ((t.latched input).hoverStep env input |>.dragStep input).changed ∧
    (t.Update env camRect input scale).calculatedThisFrame
        = ((t.latched input).hoverStep env input |>.dragStep input).calculatedThisFrame ∧
    (t.Update env camRect input scale).pivot = t.pivot ∧
    (t.Update env camRect input scale).initialAngleVector = t.initialAngleVector ∧
    (t.Update env camRect input scale).mirrorPoints = t.mirrorPoints ∧
    (t.Update env camRect input scale).clicked = input.LeftMouse := by
  have hh := hoverStep_fields env input (t.latched input)
  have hd := dragStep_fields input ((t.latched input).hoverStep env input)
  refine ⟨rfl, rfl, rfl, rfl, rfl, ?_, ?_, ?_, ?_⟩
  · show ((t.latched input).hoverStep env input |>.dragStep input).pivot = t.pivot
    rw [hd.1, hh.2.1]; rfl
  · show ((t.latched input).hoverStep env input |>.dragStep input).initialAngleVector = _
    rw [hd.2.1, hh.2.2.1]; rfl
  · show ((t.latched input).hoverStep env input |>.dragStep input).mirrorPoints = _
    rw [hd.2.2.1, hh.2.2.2.2.2.2]; rfl
  · show ((t.latched input).hoverStep env input |>.dragStep input).clicked = _
    rw [hd.2.2.2.2, hh.2.2.2.1]; rfl

/-- The drag flag after `Tilter::Update`. -/
theorem Update_selected (env : TilterEnv) (camRect : Vec4) (input : Controls) (scale : ℚ)
    (t : Tilter) :
    (t.Update env camRect input scale).selected
      = (input.LeftMouse &&
          (t.selected || (env.contains input.MousePos t.sprite.getDrawRect && !t.clicked))) := by
  rw [(Update_fields env camRect input scale t).2.1,
    (dragStep_fields input _).2.2.2.1, hoverStep_selected,
    (hoverStep_fields env input _).2.2.2.1]
  simp only [Tilter.latched, Sprite.setColour, Sprite.getDrawRect]
  cases input.LeftMouse <;> cases t.selected <;> cases t.clicked <;>
    cases env.contains input.MousePos t.sprite.drawRect <;> rfl

/-- Embedding of `Tilter::Update` while dragging with the button held. -/
theorem Update_dragging (env : TilterEnv) (camRect : Vec4) (input : Controls) (scale : ℚ)
    (t : Tilter) (hsel : t.selected = true) (hclk : input.LeftMouse = true) :
    (t.Update env camRect input scale).angle
      = t.angle + dragMovement t.prevMouse input.MousePos t.initialAngleVector * (1 / 5) ∧
    (t.Update env camRect input scale).prevMouse = input.MousePos ∧
    (t.Update env camRect input scale).changed
      = (t.changed ||
          decide (dragMovement t.prevMouse input.MousePos t.initialAngleVector ≠ 0)) ∧
    (t.Update env camRect input scale).calculatedThisFrame
      = (t.calculatedThisFrame &&
          decide (dragMovement t.prevMouse input.MousePos t.initialAngleVector = 0)) := by
  obtain ⟨h1, _, h3, h4, h5, _⟩ := Update_fields env camRect input scale t
  have hl : (t.latched input).selected = true := hsel
  rw [h1, h3, h4, h5, hoverStep_of_selected env input _ hl]
  exact dragStep_dragging input (t.latched input) hl hclk

/-- When the cache flag survives an `Update`, the angle did too. -/
theorem Update_keeps_angle (env : TilterEnv) (camRect : Vec4) (input : Controls) (scale : ℚ)
    (t : Tilter) (h : (t.Update env camRect input scale).calculatedThisFrame = true) :
    t.calculatedThisFrame = true ∧ (t.Update env camRect input scale).angle = t.angle := by
  obtain ⟨h1, _, _, _, h5, _⟩ := Update_fields env camRect input scale t
  have hh := hoverStep_fields env input (t.latched input)
  rw [h5] at h
  rw [h1]
  cases hd : (((t.latched input).hoverStep env input).selected &&
      ((t.latched input).hoverStep env input).clicked)
  · obtain ⟨a, _, c⟩ := dragStep_idle input _ hd
    rw [c, hh.2.2.2.2.2.1] at h
    rw [a, hh.1]
    exact ⟨h, rfl⟩
  · simp only [Bool.and_eq_true] at hd
    obtain ⟨a, _, _, c⟩ := dragStep_dragging input _ hd.1 hd.2
    rw [c, hh.2.2.2.2.2.1] at h
    simp only [Bool.and_eq_true, decide_eq_true_eq] at h
    rw [a, h.2, hh.1]
    refine ⟨h.1, ?_⟩
    show t.angle + 0 * (1 / 5) = t.angle
    ring

theorem Update_cacheValid (env : TilterEnv) (camRect : Vec4) (input : Controls) (scale : ℚ)
    (t : Tilter) (h : CacheValid env t) :
    CacheValid env (t.Update env camRect input scale) := by
  intro hc
  obtain ⟨h0, ha⟩ := Update_keeps_angle env camRect input scale t hc
  obtain ⟨_, _, _, _, _, hp, _, hm, _⟩ := Update_fields env camRect input scale t
  rw [hm, hp, ha]
  exact h h0

theorem getMirrorPoints_spec (env : TilterEnv) (t : Tilter) (h : CacheValid env t) :
    (t.getMirrorPoints env).2 = mirrorEndpoints env t.pivot t.angle ∧
    CacheValid env (t.getMirrorPoints env).1 ∧
    (t.getMirrorPoints env).1.angle = t.angle ∧
    (t.getMirrorPoints env).1.pivot = t.pivot := by
  unfold Tilter.getMirrorPoints
  cases hc : t.calculatedThisFrame
  · simp [CacheValid, mirrorEndpoints, Vec2.add, Vec2.sub]
  · simp [h hc]
    exact h

theorem runTilter_cacheValid (env : TilterEnv) (ops : List TilterOp) (t : Tilter)
    (h : CacheValid env t) : CacheValid env (runTilter env ops t) := by
  induction ops generalizing t with
  | nil => exact h
  | cons o os ih =>
    cases o with
    | Update camRect input scale => exact ih _ (Update_cacheValid env camRect input scale t h)
    | getMirrorPoints => exact ih _ (getMirrorPoints_spec env t h).2.1

/-- C7: for a Tilter that is being dragged, two consecutive `Tilter::Update`
calls with the left button held, the first with the pointer moved by `d`
from the previous pointer position and the second with it moved back by
`-d`, leave the angle at its value before the two calls, for every `d` and
every initial-angle direction vector. -/
theorem C7_drag_round_trip (env : TilterEnv) (t : Tilter) (d : Vec2)
    (camRect1 camRect2 : Vec4) (input1 input2 : Controls) (scale1 scale2 : ℚ)
    (hsel : t.selected = true)
    (hdown1 : input1.LeftMouse = true) (hdown2 : input2.LeftMouse = true)
    (hmove1 : input1.MousePos = t.prevMouse.add d)
    (hmove2 : input2.MousePos = input1.MousePos.add d.neg) :
    ((t.Update env camRect1 input1 scale1).Update env camRect2 input2 scale2).angle
      = t.angle := by
  have hsel1 : (t.Update env camRect1 input1 scale1).selected = true := by
    rw [Update_selected, hdown1, hsel]; rfl
  obtain ⟨a1, p1, _, _⟩ := Update_dragging env camRect1 input1 scale1 t hsel hdown1
  obtain ⟨a2, _, _, _⟩ := Update_dragging env camRect2 input2 scale2 _ hsel1 hdown2
  have hv := (Update_fields env camRect1 input1 scale1 t).2.2.2.2.2.2.1
  rw [a2, a1, p1, hv, hmove2, hmove1]
  simp only [dragMovement, Vec2.sub, Vec2.add, Vec2.mul, Vec2.neg]
  ring

/-- C7, on the sample Tilter (pivot `(100, 100)`, initial angle `0`) in a
drag with the pointer at `(100, 100)`: after the move by `(+5, 0)` the angle
is `-1`, after the move by `(-5, 0)` it is `0` again. -/
theorem C7_drag_round_trip_witness :
    (Tilter.sampleDragging.Update TilterEnv.sample ⟨0, 0, 800, 600⟩
        (Controls.pressedAt ⟨105, 100⟩) 1).angle = -1 ∧
    ((Tilter.sampleDragging.Update TilterEnv.sample ⟨0, 0, 800, 600⟩
        (Controls.pressedAt ⟨105, 100⟩) 1).Update TilterEnv.sample ⟨0, 0, 800, 600⟩
        (Controls.pressedAt ⟨100, 100⟩) 1).angle = Tilter.sampleDragging.angle :=
  ⟨by
    norm_num [Tilter.Update, Tilter.hoverStep, Tilter.dragStep, dragMovement, Vec2.sub,
      Vec2.mul, Tilter.sampleDragging, Tilter.sample, Controls.pressedAt, Controls.idle,
      Sprite.setColour, Sprite.getDrawRect, Sprite.setRotation, TilterEnv.sample],
   C7_drag_round_trip TilterEnv.sample Tilter.sampleDragging ⟨5, 0⟩ ⟨0, 0, 800, 600⟩
    ⟨0, 0, 800, 600⟩ (Controls.pressedAt ⟨105, 100⟩) (Controls.pressedAt ⟨100, 100⟩) 1 1
    rfl rfl rfl
    (by norm_num [Controls.pressedAt, Tilter.sampleDragging, Tilter.sample, Vec2.add])
    (by norm_num [Controls.pressedAt, Vec2.add, Vec2.neg])⟩

/-- C8: starting from a Tilter whose endpoint cache is marked not
calculated, after every sequence of `Tilter::Update` and `getMirrorPoints`
calls, `getMirrorPoints` returns `(pivot + v * w/2, pivot - v * w/2)` for
the current angle, and whenever `calculatedThisFrame` is true the cached
`mirrorPoints` are those endpoints: the cache is never stale. -/
theorem C8_mirror_points_current (env : TilterEnv) (ops : List TilterOp) (t : Tilter)
    (hfresh : t.calculatedThisFrame = false) :
    ((runTilter env ops t).getMirrorPoints env).2
        = mirrorEndpoints env (runTilter env ops t).pivot (runTilter env ops t).angle ∧
    ((runTilter env ops t).calculatedThisFrame = true →
      (runTilter env ops t).mirrorPoints
        = mirrorEndpoints env (runTilter env ops t).pivot (runTilter env ops t).angle) := by
  have h0 : CacheValid env t := by
    intro h
    rw [hfresh] at h
    cases h
  have h := runTilter_cacheValid env ops t h0
  exact ⟨(getMirrorPoints_spec env _ h).1, h⟩

/-- C8, on the sample Tilter: the endpoints are read, a drag starts at
`(100, 100)` and moves the pointer to `(105, 100)`, which turns the angle to
`-1`; the next read returns the endpoints for that angle, `(100, 132)` and
`(100, 68)`, not the cached ones for angle `0`. -/
theorem C8_mirror_points_current_witness :
    ((runTilter TilterEnv.sample
        [TilterOp.getMirrorPoints,
         TilterOp.Update ⟨0, 0, 800, 600⟩ (Controls.pressedAt ⟨100, 100⟩) 1,
         TilterOp.Update ⟨0, 0, 800, 600⟩ (Controls.pressedAt ⟨105, 100⟩) 1]
        Tilter.sample).getMirrorPoints TilterEnv.sample).2
      = ⟨100, 132, 100, 68⟩ :=
  (C8_mirror_points_current TilterEnv.sample
    [TilterOp.getMirrorPoints,
     TilterOp.Update ⟨0, 0, 800, 600⟩ (Controls.pressedAt ⟨100, 100⟩) 1,
     TilterOp.Update ⟨0, 0, 800, 600⟩ (Controls.pressedAt ⟨105, 100⟩) 1]
    Tilter.sample rfl).1.trans (by
      norm_num [mirrorEndpoints, runTilter, TilterOp.apply, Tilter.getMirrorPoints,
        Tilter.Update, Tilter.hoverStep, Tilter.dragStep, dragMovement, Vec2.sub, Vec2.add,
        Vec2.mul, Tilter.sample, Controls.pressedAt, Controls.idle, Sprite.setColour,
        Sprite.getDrawRect, Sprite.setRotation, TilterEnv.sample])

/-- C9: after `Tilter::Update` the widget is dragging if and only if the
left button is down now and either it was already dragging, or the pointer
is inside the base sprite's draw rect and the button was not down at the
previous `Update`; so releasing the button always ends the drag, and a
button already held when no drag is in progress never starts one. -/
theorem C9_drag_state_transition (env : TilterEnv) (camRect : Vec4) (input : Controls)
    (scale : ℚ) (t : Tilter) :
    (t.Update env camRect input scale).selected
        = (input.LeftMouse &&
            (t.selected ||
              (env.contains input.MousePos t.sprite.getDrawRect && !t.clicked))) ∧
    (t.Update env camRect { input with LeftMouse := false } scale).selected = false ∧
    (Tilter.Update env camRect input scale
        { t with selected := false, clicked := true }).selected = false := by
  refine ⟨Update_selected env camRect input scale t, ?_, ?_⟩
  · rw [Update_selected]; rfl
  · rw [Update_selected]; simp

/-- C10: for every `Tilter::Update` call made while dragging with the button
still held, with `movement` the sum of the componentwise products of
`prevMouse - MousePos` with the initial-angle direction vector: when
`movement` is nonzero the angle grows by `movement * 0.2`, `changed` is set
and `calculatedThisFrame` is cleared; when it is zero all three are left
unchanged; in both cases `prevMouse` becomes the current pointer position. -/
theorem C10_drag_step (env : TilterEnv) (camRect : Vec4) (input : Controls) (scale : ℚ)
    (t : Tilter) (hsel : t.selected = true) (hdown : input.LeftMouse = true) :
    ((t.prevMouse.x - input.MousePos.x) * t.initialAngleVector.x
        + (t.prevMouse.y - input.MousePos.y) * t.initialAngleVector.y ≠ 0 →
      (t.Update env camRect input scale).angle
          = t.angle + ((t.prevMouse.x - input.MousePos.x) * t.initialAngleVector.x
              + (t.prevMouse.y - input.MousePos.y) * t.initialAngleVector.y) * (1 / 5) ∧
      (t.Update env camRect input scale).changed = true ∧
      (t.Update env camRect input scale).calculatedThisFrame = false) ∧
    ((t.prevMouse.x - input.MousePos.x) * t.initialAngleVector.x
        + (t.prevMouse.y - input.MousePos.y) * t.initialAngleVector.y = 0 →
      (t.Update env camRect input scale).angle = t.angle ∧
      (t.Update env camRect input scale).changed = t.changed ∧
      (t.Update env camRect input scale).calculatedThisFrame = t.calculatedThisFrame) ∧
    (t.Update env camRect input scale).prevMouse = input.MousePos := by
  obtain ⟨a, p, c, k⟩ := Update_dragging env camRect input scale t hsel hdown
  have hm : dragMovement t.prevMouse input.MousePos t.initialAngleVector
      = (t.prevMouse.x - input.MousePos.x) * t.initialAngleVector.x
        + (t.prevMouse.y - input.MousePos.y) * t.initialAngleVector.y := rfl
  rw [hm] at a c k
  refine ⟨fun hne => ⟨a, ?_, ?_⟩, fun hz => ⟨?_, ?_, ?_⟩, p⟩
  · rw [c]; simp [hne]
  · rw [k]; simp [hne]
  · rw [a, hz]; ring
  · rw [c]; simp [hz]
  · rw [k]; simp [hz]

/-- C10, on the sample Tilter in a drag with the pointer at `(100, 100)`:
a move to `(105, 100)` gives `movement = -5`, so the angle goes from `0` to
`-1`, `changed` is set, the cache is invalidated and `prevMouse` is
`(105, 100)`. -/
theorem C10_drag_step_witness :
    (Tilter.sampleDragging.Update TilterEnv.sample ⟨0, 0, 800, 600⟩
        (Controls.pressedAt ⟨105, 100⟩) 1).angle = -1 ∧
    (Tilter.sampleDragging.Update TilterEnv.sample ⟨0, 0, 800, 600⟩
        (Controls.pressedAt ⟨105, 100⟩) 1).changed = true ∧
    (Tilter.sampleDragging.Update TilterEnv.sample ⟨0, 0, 800, 600⟩
        (Controls.pressedAt ⟨105, 100⟩) 1).calculatedThisFrame = false ∧
    (Tilter.sampleDragging.Update TilterEnv.sample ⟨0, 0, 800, 600⟩
        (Controls.pressedAt ⟨105, 100⟩) 1).prevMouse = ⟨105, 100⟩ :=
  have h := C10_drag_step TilterEnv.sample ⟨0, 0, 800, 600⟩ (Controls.pressedAt ⟨105, 100⟩) 1
    Tilter.sampleDragging rfl rfl
  have hne : (Tilter.sampleDragging.prevMouse.x - (Controls.pressedAt ⟨105, 100⟩).MousePos.x)
        * Tilter.sampleDragging.initialAngleVector.x
      + (Tilter.sampleDragging.prevMouse.y - (Controls.pressedAt ⟨105, 100⟩).MousePos.y)
        * Tilter.sampleDragging.initialAngleVector.y ≠ 0 := by
    norm_num [Tilter.sampleDragging, Tilter.sample, Controls.pressedAt]
  ⟨(h.1 hne).1.trans (by
      norm_num [Tilter.sampleDragging, Tilter.sample, Controls.pressedAt]),
   (h.1 hne).2.1, (h.1 hne).2.2, h.2.2⟩

end GDTVJam
